import Mathlib

/-!
Verification development for the `lpath` pattern-matching and clustering
engine (`lpath/match.py`).  The Python functions are shallowly embedded as
executable Lean definitions: numpy object arrays of frame records become
lists of `Frame` structures, Python floats become rationals, and fallible
operations (division by zero, indexing an empty array, loading a missing
file) return `Option`.
-/

namespace LPath

/-- A frame record of a pathway: `[iteration_id, segment_id, state_id,
pcoord_or_auxdata, weight]`, the row layout of the `pathways` array built by
`load_data` and the reassignment functions. -/
structure Frame where
  iter_id : Nat
  seg_id : Nat
  state_id : Nat
  pcoord : ℚ
  weight : ℚ
deriving DecidableEq

/-- The all-zero frame record: rows of the zero-initialized `pathways`
array (`numpy.zeros`) that are never overwritten. -/
def zeroFrame : Frame := ⟨0, 0, 0, 0, 0⟩

/-- Length of the longest common subsequence of two character lists;
embeds `pylcs.lcs_sequence_length` (documented as the classic
longest-common-subsequence length). -/
def lcsLen : List Char → List Char → Nat
  | [], _ => 0
  | _ :: _, [] => 0
  | a :: as, b :: bs =>
    if a = b then lcsLen as bs + 1
    else max (lcsLen (a :: as) bs) (lcsLen as (b :: bs))
termination_by s1 s2 => s1.length + s2.length

/-- Length of the longest common prefix of two character lists (helper for
the longest-common-substring length). -/
def matchLen : List Char → List Char → Nat
  | a :: as, b :: bs => if a = b then matchLen as bs + 1 else 0
  | _, _ => 0

/-- Length of the longest common substring of two character lists, as the
maximum over all pairs of suffixes of their common-prefix length; embeds
`pylcs.lcs_string_length` (documented as the longest-common-substring
length). -/
def lcsSubstrLen (a b : List Char) : Nat :=
  (a.tails.map (fun sa => (b.tails.map (fun sb => matchLen sa sb)).foldr max 0)).foldr max 0

/-- The string built by `calc_dist` from a state-id sequence: keep entries
strictly below `len(dictionary) - 1` (the unknown index) and map each
through the dictionary (`seq1 = seq1[seq1 < len(dictionary) - 1]` followed
by `"".join(dictionary[x] for x in seq1)`).  The dictionary `{0: c0, 1: c1,
...}` is embedded as the list `[c0, c1, ...]`. -/
def seqToStr (dict : List Char) (seq : List Nat) : List Char :=
  (seq.filter (fun x => x < dict.length - 1)).map (fun x => dict.getD x '!')

/-- Embeds `calc_dist` of `lpath/match.py`: strip unknown-state entries,
map through the dictionary, `similarity = 2*km / (len1 + len2)` with
`km = pylcs.lcs_sequence_length`, return `1 - similarity`.  When both
strings are empty the Python division `(2*km)/(0)` raises
`ZeroDivisionError`; the embedding returns `none` there. -/
def calc_dist (seq1 seq2 : List Nat) (dict : List Char) : Option ℚ :=
  let s1 := seqToStr dict seq1
  let s2 := seqToStr dict seq2
  if s1.length + s2.length = 0 then none
  else some (1 - (2 * (lcsLen s1 s2 : ℚ)) / ((s1.length : ℚ) + (s2.length : ℚ)))

/-- Embeds `calc_dist_substr` of `lpath/match.py`: no stripping (the filter
is commented out in the source), map every entry through the dictionary,
`similarity = 2*km / (len1 + len2)` with `km = pylcs.lcs_string_length`,
return `1 - similarity`; `none` on the unguarded zero denominator. -/
def calc_dist_substr (seq1 seq2 : List Nat) (dict : List Char) : Option ℚ :=
  let s1 := seq1.map (fun x => dict.getD x '!')
  let s2 := seq2.map (fun x => dict.getD x '!')
  if s1.length + s2.length = 0 then none
  else some (1 - (2 * (lcsSubstrLen s1 s2 : ℚ)) / ((s1.length : ℚ) + (s2.length : ℚ)))


/-- The longest-common-subsequence length of a list with `[]` is `0`. -/
theorem lcsLen_nil_right (a : List Char) : lcsLen a [] = 0 := by
  cases a <;> simp [lcsLen]

/-- The longest-common-subsequence length is symmetric in its arguments. -/
theorem lcsLen_comm (a b : List Char) : lcsLen a b = lcsLen b a := by
  induction a, b using lcsLen.induct with
  | case1 x => simp [lcsLen, lcsLen_nil_right]
  | case2 h t => simp [lcsLen, lcsLen_nil_right]
  | case3 as b bs ih => simp [lcsLen, ih]
  | case4 a as b bs hne ih1 ih2 =>
    have hne2 : ¬ b = a := fun h => hne h.symm
    rw [lcsLen, lcsLen]
    simp only [if_neg hne, if_neg hne2, ih1, ih2, Nat.max_comm]

/-- The longest-common-subsequence length is at most the first length. -/
theorem lcsLen_le_left (a b : List Char) : lcsLen a b ≤ a.length := by
  induction a, b using lcsLen.induct with
  | case1 x => simp [lcsLen]
  | case2 h t => simp [lcsLen]
  | case3 as b bs ih => simpa [lcsLen] using ih
  | case4 a as b bs hne ih1 ih2 =>
    rw [lcsLen, if_neg hne]
    refine max_le ih1 (le_trans ih2 ?_)
    simp [Nat.le_succ]

/-- The longest-common-subsequence length is at most the second length. -/
theorem lcsLen_le_right (a b : List Char) : lcsLen a b ≤ b.length := by
  rw [lcsLen_comm]; exact lcsLen_le_left b a

/-- The longest common subsequence of a list with itself is the whole
list. -/
theorem lcsLen_self (a : List Char) : lcsLen a a = a.length := by
  induction a with
  | nil => simp [lcsLen]
  | cons x xs ih => simp [lcsLen, ih]

/-- Two lists sharing no character have longest-common-subsequence length
`0`. -/
theorem lcsLen_eq_zero_of_disjoint (a b : List Char) (h : ∀ x ∈ a, x ∉ b) :
    lcsLen a b = 0 := by
  induction a, b using lcsLen.induct with
  | case1 x => simp [lcsLen]
  | case2 h t => simp [lcsLen]
  | case3 as b bs ih =>
    exact absurd (List.mem_cons_self b bs) (h b (List.mem_cons_self b as))
  | case4 a as b bs hne ih1 ih2 =>
    rw [lcsLen, if_neg hne,
      ih1 (fun x hx hmem => h x hx (List.mem_cons_of_mem b hmem)),
      ih2 (fun x hx => h x (List.mem_cons_of_mem a hx))]
    simp

/-- `calc_dist` is symmetric in its two sequences. -/
theorem calc_dist_comm (seq1 seq2 : List Nat) (dict : List Char) :
    calc_dist seq1 seq2 dict = calc_dist seq2 seq1 dict := by
  simp only [calc_dist]
  rw [lcsLen_comm, Nat.add_comm (seqToStr dict seq1).length,
    add_comm ((seqToStr dict seq1).length : ℚ)]

/-- `calc_dist` of a sequence with itself is `0` when the stripped string
is nonempty. -/
theorem calc_dist_self (seq : List Nat) (dict : List Char)
    (h : seqToStr dict seq ≠ []) : calc_dist seq seq dict = some 0 := by
  unfold calc_dist
  have hl : (seqToStr dict seq).length ≠ 0 := by
    simpa [List.length_eq_zero] using h
  rw [if_neg (by omega)]
  have hq : ((seqToStr dict seq).length : ℚ) ≠ 0 := Nat.cast_ne_zero.mpr hl
  rw [lcsLen_self]
  congr 1
  field_simp
  ring

/-- `calc_dist` lands in `[0, 1]` when the stripped strings are
nonempty. -/
theorem calc_dist_mem_unit (seq1 seq2 : List Nat) (dict : List Char)
    (h1 : seqToStr dict seq1 ≠ []) :
    ∃ q, calc_dist seq1 seq2 dict = some q ∧ 0 ≤ q ∧ q ≤ 1 := by
  unfold calc_dist
  have hl1 : (seqToStr dict seq1).length ≠ 0 := by
    simpa [List.length_eq_zero] using h1
  rw [if_neg (by omega)]
  refine ⟨_, rfl, ?_, ?_⟩
  · have hden : (0 : ℚ) < (seqToStr dict seq1).length + (seqToStr dict seq2).length := by
      have : 0 < (seqToStr dict seq1).length := Nat.pos_of_ne_zero hl1
      positivity
    have hnum : (2 * (lcsLen (seqToStr dict seq1) (seqToStr dict seq2) : ℚ)) ≤
        (seqToStr dict seq1).length + (seqToStr dict seq2).length := by
      have ha := lcsLen_le_left (seqToStr dict seq1) (seqToStr dict seq2)
      have hb := lcsLen_le_right (seqToStr dict seq1) (seqToStr dict seq2)
      have : 2 * lcsLen (seqToStr dict seq1) (seqToStr dict seq2) ≤
          (seqToStr dict seq1).length + (seqToStr dict seq2).length := by omega
      exact_mod_cast this
    have := (div_le_one hden).mpr hnum
    linarith
  · have hnn : (0 : ℚ) ≤ (2 * (lcsLen (seqToStr dict seq1) (seqToStr dict seq2) : ℚ)) /
        ((seqToStr dict seq1).length + (seqToStr dict seq2).length) := by
      positivity
    linarith

/-- `calc_dist` of symbol-disjoint nonempty stripped strings is `1`. -/
theorem calc_dist_disjoint (seq1 seq2 : List Nat) (dict : List Char)
    (h1 : seqToStr dict seq1 ≠ [])
    (hd : ∀ c ∈ seqToStr dict seq1, c ∉ seqToStr dict seq2) :
    calc_dist seq1 seq2 dict = some 1 := by
  unfold calc_dist
  have hl1 : (seqToStr dict seq1).length ≠ 0 := by
    simpa [List.length_eq_zero] using h1
  rw [if_neg (by omega), lcsLen_eq_zero_of_disjoint _ _ hd]
  norm_num

/-- Claim C6: for pathway sequences whose stripped strings are nonempty,
the subsequence distance is symmetric, zero on the diagonal (identical
sequences give distance 0), lies in the unit interval, and equals 1 for
symbol-disjoint sequences; hence the distance matrix built from
`calc_dist` is symmetric with zero diagonal and entries in `[0, 1]`. -/
theorem C6_distance_metric_properties (dict : List Char) (seq1 seq2 : List Nat)
    (h1 : seqToStr dict seq1 ≠ []) (h2 : seqToStr dict seq2 ≠ []) :
    calc_dist seq1 seq2 dict = calc_dist seq2 seq1 dict ∧
    calc_dist seq1 seq1 dict = some 0 ∧
    (∃ q, calc_dist seq1 seq2 dict = some q ∧ 0 ≤ q ∧ q ≤ 1) ∧
    ((∀ c ∈ seqToStr dict seq1, c ∉ seqToStr dict seq2) →
      calc_dist seq1 seq2 dict = some 1) :=
  ⟨calc_dist_comm seq1 seq2 dict, calc_dist_self seq1 dict h1,
    calc_dist_mem_unit seq1 seq2 dict h1,
    fun hd => calc_dist_disjoint seq1 seq2 dict h1 hd⟩

/-- Witness for C6 at `seq1 = [0]`, `seq2 = [1]`,
`dictionary = {0: A, 1: B, 2: !}`. -/
theorem C6_distance_metric_properties_witness :
    calc_dist [0] [1] [Char.ofNat 65, Char.ofNat 66, Char.ofNat 33] =
      calc_dist [1] [0] [Char.ofNat 65, Char.ofNat 66, Char.ofNat 33] ∧
    calc_dist [0] [0] [Char.ofNat 65, Char.ofNat 66, Char.ofNat 33] = some 0 ∧
    (∃ q, calc_dist [0] [1] [Char.ofNat 65, Char.ofNat 66, Char.ofNat 33] = some q ∧
      0 ≤ q ∧ q ≤ 1) ∧
    ((∀ c ∈ seqToStr [Char.ofNat 65, Char.ofNat 66, Char.ofNat 33] [0],
        c ∉ seqToStr [Char.ofNat 65, Char.ofNat 66, Char.ofNat 33] [1]) →
      calc_dist [0] [1] [Char.ofNat 65, Char.ofNat 66, Char.ofNat 33] = some 1) :=
  C6_distance_metric_properties [Char.ofNat 65, Char.ofNat 66, Char.ofNat 33]
    [0] [1] (by simp [seqToStr]) (by simp [seqToStr])

/-- Modelled from the spec words for claim C7: the reference subsequence
metric strips every entry equal to the unknown index (`len(dictionary) -
1`, the highest entry), maps each remaining `state_id` through the
dictionary, takes the longest-common-subsequence length `k`, and returns
`1 - 2k/(len1 + len2)` (undefined when both strings are empty). -/
def calc_dist_spec (seq1 seq2 : List Nat) (dict : List Char) : Option ℚ :=
  let s1 := (seq1.filter (fun x => x ≠ dict.length - 1)).map (fun x => dict.getD x '!')
  let s2 := (seq2.filter (fun x => x ≠ dict.length - 1)).map (fun x => dict.getD x '!')
  if s1.length + s2.length = 0 then none
  else some (1 - (2 * (lcsLen s1 s2 : ℚ)) / ((s1.length : ℚ) + (s2.length : ℚ)))

/-- Claim C7: on in-range state-id sequences (every entry indexes the
dictionary), the implemented subsequence metric `calc_dist` agrees with
the reference definition `calc_dist_spec`. -/
theorem C7_calc_dist_eq_reference (dict : List Char) (seq1 seq2 : List Nat)
    (h1 : ∀ x ∈ seq1, x < dict.length) (h2 : ∀ x ∈ seq2, x < dict.length) :
    calc_dist seq1 seq2 dict = calc_dist_spec seq1 seq2 dict := by
  unfold calc_dist calc_dist_spec seqToStr
  have e1 : seq1.filter (fun x => x < dict.length - 1) =
      seq1.filter (fun x => x ≠ dict.length - 1) := by
    refine List.filter_congr (fun x hx => ?_)
    have := h1 x hx
    simp only [decide_eq_decide]
    omega
  have e2 : seq2.filter (fun x => x < dict.length - 1) =
      seq2.filter (fun x => x ≠ dict.length - 1) := by
    refine List.filter_congr (fun x hx => ?_)
    have := h2 x hx
    simp only [decide_eq_decide]
    omega
  rw [e1, e2]

/-- Witness for C7 at `seq1 = [0, 2]`, `seq2 = [1]`,
`dictionary = {0: A, 1: B, 2: !}`. -/
theorem C7_calc_dist_eq_reference_witness :
    calc_dist [0, 2] [1] [Char.ofNat 65, Char.ofNat 66, Char.ofNat 33] =
      calc_dist_spec [0, 2] [1] [Char.ofNat 65, Char.ofNat 66, Char.ofNat 33] :=
  C7_calc_dist_eq_reference [Char.ofNat 65, Char.ofNat 66, Char.ofNat 33]
    [0, 2] [1] (by simp) (by simp)


/-- Claim C2 (code bug): on two sequences that are entirely unknown
symbols (`state_id = 1` with dictionary `{0: A, 1: !}`), both stripped
strings are empty and `calc_dist` hits the unguarded `0/0` division:
the Python code raises `ZeroDivisionError` (embedded as `none`) instead
of returning the claimed defined distance `1.0`. -/
theorem C2_both_unknown_division_fails :
    calc_dist [1] [1] [Char.ofNat 65, Char.ofNat 33] = none := rfl

/-- Counterexample to claim C3 as stated: on the sequences mapping to
`AAAB` and `BAAA` (dictionary `{0: A, 1: B, 2: !}`) the subsequence metric
and the substring metric give the SAME distance `1/4` (the longest common
subsequence and the longest common substring are both `AAA`, length 3),
so the two distances do not differ on this input. -/
theorem C3_counterexample_same_distance :
    calc_dist [0, 0, 0, 1] [1, 0, 0, 0] [Char.ofNat 65, Char.ofNat 66, Char.ofNat 33] =
      some (1 / 4) ∧
    calc_dist_substr [0, 0, 0, 1] [1, 0, 0, 0] [Char.ofNat 65, Char.ofNat 66, Char.ofNat 33] =
      some (1 / 4) := by
  constructor
  · have h : lcsLen [Char.ofNat 65, Char.ofNat 65, Char.ofNat 65, Char.ofNat 66]
        [Char.ofNat 66, Char.ofNat 65, Char.ofNat 65, Char.ofNat 65] = 3 := by
      simp [lcsLen]
    simp [calc_dist, seqToStr, h]
    norm_num
  · have h : lcsSubstrLen [Char.ofNat 65, Char.ofNat 65, Char.ofNat 65, Char.ofNat 66]
        [Char.ofNat 66, Char.ofNat 65, Char.ofNat 65, Char.ofNat 65] = 3 := by decide
    simp [calc_dist_substr, h]
    norm_num

/-- Claim C3 (amended): on the sequences mapping to `AAAB` and `BAAA` the
substring and subsequence metrics agree (both give distance `1/4`); the
two metrics are nevertheless not interchangeable, since on the sequences
mapping to `ABC` and `ACB` (dictionary `{0: A, 1: B, 2: C, 3: !}`) the
subsequence metric gives `1/3` while the substring metric gives `2/3`. -/
theorem C3_amended_metrics_differ_elsewhere :
    calc_dist [0, 0, 0, 1] [1, 0, 0, 0] [Char.ofNat 65, Char.ofNat 66, Char.ofNat 33] =
      calc_dist_substr [0, 0, 0, 1] [1, 0, 0, 0] [Char.ofNat 65, Char.ofNat 66, Char.ofNat 33] ∧
    calc_dist [0, 1, 2] [0, 2, 1]
      [Char.ofNat 65, Char.ofNat 66, Char.ofNat 67, Char.ofNat 33] = some (1 / 3) ∧
    calc_dist_substr [0, 1, 2] [0, 2, 1]
      [Char.ofNat 65, Char.ofNat 66, Char.ofNat 67, Char.ofNat 33] = some (2 / 3) ∧
    some ((1 : ℚ) / 3) ≠ some ((2 : ℚ) / 3) := by
  refine ⟨?_, ?_, ?_, by norm_num⟩
  · have h1 : lcsLen [Char.ofNat 65, Char.ofNat 65, Char.ofNat 65, Char.ofNat 66]
        [Char.ofNat 66, Char.ofNat 65, Char.ofNat 65, Char.ofNat 65] = 3 := by
      simp [lcsLen]
    have h2 : lcsSubstrLen [Char.ofNat 65, Char.ofNat 65, Char.ofNat 65, Char.ofNat 66]
        [Char.ofNat 66, Char.ofNat 65, Char.ofNat 65, Char.ofNat 65] = 3 := by decide
    simp [calc_dist, calc_dist_substr, seqToStr, h1, h2]
  · have h : lcsLen [Char.ofNat 65, Char.ofNat 66, Char.ofNat 67]
        [Char.ofNat 65, Char.ofNat 67, Char.ofNat 66] = 2 := by
      simp [lcsLen]
    simp [calc_dist, seqToStr, h]
    norm_num
  · have h : lcsSubstrLen [Char.ofNat 65, Char.ofNat 66, Char.ofNat 67]
        [Char.ofNat 65, Char.ofNat 67, Char.ofNat 66] = 1 := by decide
    simp [calc_dist_substr, h]
    norm_num


/-- The per-step body of `expand_shorter_traj`: `if step[0] == 0:
step[2] = len(dictionary) - 1` — a padding frame (no iteration number)
gets its state marked with the dictionary entry of highest index. -/
def expandStep (dict : List Char) (step : Frame) : Frame :=
  if step.iter_id = 0 then { step with state_id := dict.length - 1 } else step

/-- Embeds `expand_shorter_traj` of `lpath/match.py` (the in-place loop is
rendered as a map producing the updated pathways). -/
def expand_shorter_traj (pathways : List (List Frame)) (dict : List Char) :
    List (List Frame) :=
  pathways.map (fun p => p.map (expandStep dict))

/-- Marking a padding frame twice is the same as marking it once. -/
theorem expandStep_idem (dict : List Char) (s : Frame) :
    expandStep dict (expandStep dict s) = expandStep dict s := by
  unfold expandStep
  by_cases h : s.iter_id = 0 <;> simp [h]

/-- Indexing a doubly mapped list of pathways pushes the map inside. -/
theorem getD_nested_map (pathways : List (List Frame)) (f : Frame → Frame)
    (i j : Nat) (hi : i < pathways.length) (hj : j < (pathways.getD i []).length) :
    ((pathways.map (fun p => p.map f)).getD i []).getD j zeroFrame =
      f ((pathways.getD i []).getD j zeroFrame) := by
  have h2 : pathways.getD i [] = pathways[i] := List.getD_eq_getElem _ _ hi
  have h1 : (pathways.map (fun p => p.map f)).getD i [] = pathways[i].map f := by
    rw [List.getD_eq_getElem _ _ (by simpa using hi), List.getElem_map]
  rw [h2] at hj
  rw [h1, List.getD_eq_getElem _ _ (by simpa using hj), List.getElem_map, h2,
    List.getD_eq_getElem _ _ hj]

/-- Claim C9: `expand_shorter_traj` sets `state_id` to the dictionary
unknown index exactly on frames with `iteration_id = 0`, leaves every
other frame (and every other field) unchanged, and is idempotent. -/
theorem C9_padding_exact_and_idempotent (pathways : List (List Frame))
    (dict : List Char) (i j : Nat)
    (hi : i < pathways.length) (hj : j < (pathways.getD i []).length) :
    (((pathways.getD i []).getD j zeroFrame).iter_id = 0 →
      ((expand_shorter_traj pathways dict).getD i []).getD j zeroFrame =
        { (pathways.getD i []).getD j zeroFrame with state_id := dict.length - 1 }) ∧
    (((pathways.getD i []).getD j zeroFrame).iter_id ≠ 0 →
      ((expand_shorter_traj pathways dict).getD i []).getD j zeroFrame =
        (pathways.getD i []).getD j zeroFrame) ∧
    expand_shorter_traj (expand_shorter_traj pathways dict) dict =
      expand_shorter_traj pathways dict := by
  have key := getD_nested_map pathways (expandStep dict) i j hi hj
  refine ⟨fun h0 => ?_, fun h0 => ?_, ?_⟩
  · rw [expand_shorter_traj, key, expandStep, if_pos h0]
  · rw [expand_shorter_traj, key, expandStep, if_neg h0]
  · simp [expand_shorter_traj, List.map_map, Function.comp_def, expandStep_idem]

/-- Witness for C9 at a single padding frame with `dictionary = {0: A,
1: !}`. -/
theorem C9_padding_exact_and_idempotent_witness :
    (((([[(⟨0, 7, 3, 2, 5⟩ : Frame)]] : List (List Frame)).getD 0 []).getD 0
        zeroFrame).iter_id = 0 →
      ((expand_shorter_traj [[⟨0, 7, 3, 2, 5⟩]] [Char.ofNat 65, Char.ofNat 33]).getD 0
          []).getD 0 zeroFrame =
        { (([[(⟨0, 7, 3, 2, 5⟩ : Frame)]] : List (List Frame)).getD 0 []).getD 0
            zeroFrame with
          state_id := [Char.ofNat 65, Char.ofNat 33].length - 1 }) ∧
    (((([[(⟨0, 7, 3, 2, 5⟩ : Frame)]] : List (List Frame)).getD 0 []).getD 0
        zeroFrame).iter_id ≠ 0 →
      ((expand_shorter_traj [[⟨0, 7, 3, 2, 5⟩]] [Char.ofNat 65, Char.ofNat 33]).getD 0
          []).getD 0 zeroFrame =
        (([[(⟨0, 7, 3, 2, 5⟩ : Frame)]] : List (List Frame)).getD 0 []).getD 0
          zeroFrame) ∧
    expand_shorter_traj
        (expand_shorter_traj [[⟨0, 7, 3, 2, 5⟩]] [Char.ofNat 65, Char.ofNat 33])
        [Char.ofNat 65, Char.ofNat 33] =
      expand_shorter_traj [[⟨0, 7, 3, 2, 5⟩]] [Char.ofNat 65, Char.ofNat 33] :=
  C9_padding_exact_and_idempotent [[⟨0, 7, 3, 2, 5⟩]] [Char.ofNat 65, Char.ofNat 33]
    0 0 (by decide) (by decide)

/-- The per-frame body of `reassign_segid`: copy the frame and replace
`state_id` with `seg_id` (`pathways[idx, idx2, 2] = val2[1]`). -/
def segStep (f : Frame) : Frame := { f with state_id := f.seg_id }

/-- Embeds the pathway-filling loop of `reassign_segid`: each input
pathway is reversed (`val[::-1]`), copied with `state_id` overwritten by
`seg_id`, and sits in a row of width `L` of the zero-initialized
`pathways` array, so rows longer than the data keep `zeroFrame`
entries. -/
def reassign_segid_paths (data : List (List Frame)) (L : Nat) : List (List Frame) :=
  data.map (fun val =>
    (val.reverse.map segStep) ++ List.replicate (L - val.length) zeroFrame)

/-- Embeds `n_states - 1`, i.e. `max([seg[2] for traj in pathways for seg
in traj])` over the filled pathways array. -/
def maxState (paths : List (List Frame)) : Nat :=
  ((paths.map (fun p => p.map Frame.state_id)).flatten).foldr max 0

/-- Embeds the dictionary built by `reassign_segid`: `dictionary[idx] =
chr(idx + 65)` for `idx < n_states` and `dictionary[n_states] = chr(33)`
(the unknown symbol) at the highest index. -/
def reassign_segid_dict (paths : List (List Frame)) : List Char :=
  (List.range (maxState paths + 1)).map (fun i => Char.ofNat (i + 65)) ++ [Char.ofNat 33]

/-- Each copied frame of `reassign_segid` is the reversed input frame with
`state_id` overwritten by `seg_id`. -/
theorem reassign_segid_frame_eq (data : List (List Frame)) (L i j : Nat)
    (hi : i < data.length) (hj : j < (data.getD i []).length) :
    ((reassign_segid_paths data L).getD i []).getD j zeroFrame =
      segStep (((data.getD i []).reverse).getD j zeroFrame) := by
  have h2 : data.getD i [] = data[i] := List.getD_eq_getElem _ _ hi
  have h1 : (reassign_segid_paths data L).getD i [] =
      (data[i].reverse.map segStep) ++ List.replicate (L - data[i].length) zeroFrame := by
    rw [reassign_segid_paths, List.getD_eq_getElem _ _ (by simpa using hi),
      List.getElem_map]
  rw [h2] at hj
  have hj2 : j < (data[i].reverse.map segStep).length := by simpa using hj
  rw [h1, h2, List.getD_eq_getElem _ _ (by simp; omega), List.getElem_append,
    dif_pos hj2, List.getElem_map, List.getD_eq_getElem _ _ (by simpa using hj)]

/-- Every index up to the maximal state is mapped to its letter by the
`reassign_segid` dictionary. -/
theorem reassign_segid_dict_letters (paths : List (List Frame)) (k : Nat)
    (hk : k ≤ maxState paths) :
    (reassign_segid_dict paths).getD k (Char.ofNat 33) = Char.ofNat (k + 65) := by
  have hk2 : k < (List.range (maxState paths + 1)).length := by simp; omega
  rw [reassign_segid_dict, List.getD_eq_getElem _ _ (by simp; omega),
    List.getElem_append, dif_pos (by simpa using hk2), List.getElem_map,
    List.getElem_range]

/-- Counterexample to claim C8 as stated: on the single pathway
`[[iter 1, seg 2, state 0, 0, weight 1]]` the set of distinct segment ids
has size `M = 1`, yet `reassign_segid` leaves the overwritten `state_id`
as `2` (not remapped into the dense range `0..M-1 = {0}`) and builds a
dictionary of size `4` (`{0: A, 1: B, 2: C, 3: !}`) instead of the dense
`M + 1 = 2` entries. -/
theorem C8_counterexample_no_dense_remap :
    reassign_segid_paths [[⟨1, 2, 0, 0, 1⟩]] 1 = [[⟨1, 2, 2, 0, 1⟩]] ∧
    (([[(⟨1, 2, 0, 0, 1⟩ : Frame)]].flatten.map Frame.seg_id).dedup).length = 1 ∧
    ¬ ((2 : Nat) < 1) ∧
    (reassign_segid_dict (reassign_segid_paths [[⟨1, 2, 0, 0, 1⟩]] 1)).length = 4 ∧
    (4 : Nat) ≠ 1 + 1 := by
  refine ⟨by decide, by decide, by decide, by decide, by decide⟩

/-- Claim C8 (amended): `reassign_segid` overwrites each (reversed) frame
state with its segment id without any dense remapping, and its dictionary
assigns the character of code `65 + idx` to every index `idx` from `0` up
to the maximal resulting state id, with the reserved unknown symbol at
the highest index (`maxState + 1`). -/
theorem C8_amended_segid_no_remap (data : List (List Frame)) (L i j k : Nat)
    (hi : i < data.length) (hj : j < (data.getD i []).length)
    (hk : k ≤ maxState (reassign_segid_paths data L)) :
    ((reassign_segid_paths data L).getD i []).getD j zeroFrame =
      segStep (((data.getD i []).reverse).getD j zeroFrame) ∧
    (reassign_segid_dict (reassign_segid_paths data L)).getD k (Char.ofNat 33) =
      Char.ofNat (k + 65) ∧
    (reassign_segid_dict (reassign_segid_paths data L)).getLast? =
      some (Char.ofNat 33) ∧
    (reassign_segid_dict (reassign_segid_paths data L)).length =
      maxState (reassign_segid_paths data L) + 2 := by
  refine ⟨reassign_segid_frame_eq data L i j hi hj,
    reassign_segid_dict_letters _ k hk, List.getLast?_concat _, ?_⟩
  simp [reassign_segid_dict]

/-- Witness for C8 (amended) at the counterexample input with
`i = j = k = 0`. -/
theorem C8_amended_segid_no_remap_witness :
    ((reassign_segid_paths [[⟨1, 2, 0, 0, 1⟩]] 1).getD 0 []).getD 0 zeroFrame =
      segStep ((([[(⟨1, 2, 0, 0, 1⟩ : Frame)]] : List (List Frame)).getD 0
        []).reverse.getD 0 zeroFrame) ∧
    (reassign_segid_dict (reassign_segid_paths [[⟨1, 2, 0, 0, 1⟩]] 1)).getD 0
        (Char.ofNat 33) = Char.ofNat (0 + 65) ∧
    (reassign_segid_dict (reassign_segid_paths [[⟨1, 2, 0, 0, 1⟩]] 1)).getLast? =
      some (Char.ofNat 33) ∧
    (reassign_segid_dict (reassign_segid_paths [[⟨1, 2, 0, 0, 1⟩]] 1)).length =
      maxState (reassign_segid_paths [[⟨1, 2, 0, 0, 1⟩]] 1) + 2 :=
  C8_amended_segid_no_remap [[⟨1, 2, 0, 0, 1⟩]] 1 0 0 0 (by decide) (by decide)
    (by decide)


/-- Embeds the per-pathway weight extraction of `gen_dist_matrix`.  With
the subsequence metric (`metric = True`) the code keeps the frames whose
`state_id` is below the unknown index (`pathway[pathway[:, 2] <
len(dictionary) - 1]`) and takes the last remaining frame weight
(`nonzero[-1][-1]`); with the substring metric (`metric = False`) it takes
the raw last frame weight (`pathway[-1][-1]`).  Indexing an empty
selection fails in Python, hence `Option`. -/
def gen_weights (pathways : List (List Frame)) (dict : List Char) (metric : Bool) :
    List (Option ℚ) :=
  if metric then
    pathways.map (fun p =>
      ((p.filter (fun f => f.state_id < dict.length - 1)).getLast?).map Frame.weight)
  else
    pathways.map (fun p => p.getLast?.map Frame.weight)

/-- Embeds the comparison-sequence extraction of `gen_dist_matrix`:
`path_strings.append(pathway[:, 2])` in both metric branches. -/
def gen_path_strings (pathways : List (List Frame)) : List (List Nat) :=
  pathways.map (fun p => p.map Frame.state_id)

/-- Modelled from the spec words for claim C5: the weight of the terminal
non-padding frame, i.e. of the last frame whose `state_id` is not the
unknown index. -/
def terminal_weight_spec (p : List Frame) (dict : List Char) : Option ℚ :=
  (p.reverse.find? (fun f => f.state_id ≠ dict.length - 1)).map Frame.weight

/-- The last element of a filtered list is the last element of the
original list satisfying the predicate. -/
theorem getLast?_filter_eq_find?_reverse {α} (p : α → Bool) (l : List α) :
    (l.filter p).getLast? = l.reverse.find? p := by
  induction l using List.reverseRecOn with
  | nil => simp
  | append_singleton xs x ih =>
    rw [List.filter_append, List.reverse_append]
    by_cases h : p x
    · simp [h, List.find?]
    · simp [h, List.find?, ih]

/-- Counterexample to claim C5 as stated: on a padded pathway (a real
frame of weight `3` followed by a padding frame of weight `0`, dictionary
`{0: A, 1: !}`), the substring mode returns the raw last frame weight `0`
and not the terminal non-padding weight `3`, so the two metric modes do
not agree on the extracted weight. -/
theorem C5_counterexample_substr_weight :
    gen_weights [[⟨1, 0, 0, 0, 3⟩, ⟨0, 0, 1, 0, 0⟩]] [Char.ofNat 65, Char.ofNat 33]
      false = [some 0] ∧
    terminal_weight_spec [⟨1, 0, 0, 0, 3⟩, ⟨0, 0, 1, 0, 0⟩]
      [Char.ofNat 65, Char.ofNat 33] = some 3 ∧
    some (0 : ℚ) ≠ some (3 : ℚ) := by
  refine ⟨by decide, by decide, by decide⟩

/-- Claim C5 (amended): in both metric modes `gen_dist_matrix` uses the
`state_id` column as the comparison sequence; in the subsequence mode the
returned weight is the terminal non-padding frame weight (for in-range
state ids), while in the substring mode it is the weight of the raw last
frame (padding included). -/
theorem C5_amended_weight_extraction (pathways : List (List Frame))
    (dict : List Char)
    (hin : ∀ p ∈ pathways, ∀ f ∈ p, f.state_id < dict.length) :
    gen_weights pathways dict true =
      pathways.map (fun p => terminal_weight_spec p dict) ∧
    gen_weights pathways dict false =
      pathways.map (fun p => p.getLast?.map Frame.weight) ∧
    gen_path_strings pathways = pathways.map (fun p => p.map Frame.state_id) := by
  refine ⟨?_, rfl, rfl⟩
  rw [gen_weights, if_pos rfl]
  refine List.map_congr_left (fun p hp => ?_)
  rw [terminal_weight_spec, ← getLast?_filter_eq_find?_reverse]
  congr 1
  refine congrArg _ (List.filter_congr (fun f hf => ?_))
  have := hin p hp f hf
  simp only [decide_eq_decide]
  omega

/-- Witness for C5 (amended) at one real and one padding frame with
`dictionary = {0: A, 1: !}`. -/
theorem C5_amended_weight_extraction_witness :
    gen_weights [[⟨1, 0, 0, 0, 3⟩, ⟨0, 0, 1, 0, 0⟩]] [Char.ofNat 65, Char.ofNat 33]
        true =
      [[(⟨1, 0, 0, 0, 3⟩ : Frame), ⟨0, 0, 1, 0, 0⟩]].map
        (fun p => terminal_weight_spec p [Char.ofNat 65, Char.ofNat 33]) ∧
    gen_weights [[⟨1, 0, 0, 0, 3⟩, ⟨0, 0, 1, 0, 0⟩]] [Char.ofNat 65, Char.ofNat 33]
        false =
      [[(⟨1, 0, 0, 0, 3⟩ : Frame), ⟨0, 0, 1, 0, 0⟩]].map
        (fun p => p.getLast?.map Frame.weight) ∧
    gen_path_strings [[⟨1, 0, 0, 0, 3⟩, ⟨0, 0, 1, 0, 0⟩]] =
      [[(⟨1, 0, 0, 0, 3⟩ : Frame), ⟨0, 0, 1, 0, 0⟩]].map
        (fun p => p.map Frame.state_id) :=
  C5_amended_weight_extraction [[⟨1, 0, 0, 0, 3⟩, ⟨0, 0, 1, 0, 0⟩]]
    [Char.ofNat 65, Char.ofNat 33] (by decide)


/-- Embeds `numpy.argmax` with accumulator state: index of the first
occurrence of the maximum, failing (`none`) on an empty array exactly as
numpy raises `ValueError`. -/
def argmaxAux : List ℚ → Nat → ℚ → Nat → Nat
  | [], bestIdx, _, _ => bestIdx
  | x :: xs, bestIdx, bestVal, cur =>
    if bestVal < x then argmaxAux xs cur x (cur + 1)
    else argmaxAux xs bestIdx bestVal (cur + 1)

/-- `numpy.argmax` over a list of weights. -/
def argmax : List ℚ → Option Nat
  | [] => none
  | x :: xs => some (argmaxAux xs 0 x 1)

/-- Embeds `data_arr[cluster_labels == icluster]` of `select_rep`: the
pathways whose cluster label equals `icluster`, in order. -/
def cluster_members (data_arr : List (List Frame)) (cluster_labels : List Nat)
    (icluster : Nat) : List (List Frame) :=
  (data_arr.zip cluster_labels).filterMap
    (fun dc => if dc.2 = icluster then some dc.1 else none)

/-- Embeds `weights[cluster_labels == icluster]` of `select_rep`. -/
def cluster_weights (weights : List ℚ) (cluster_labels : List Nat)
    (icluster : Nat) : List ℚ :=
  (weights.zip cluster_labels).filterMap
    (fun wc => if wc.2 = icluster then some wc.1 else none)

/-- Embeds `select_rep` of `lpath/match.py`: it returns the member
pathways together with `data_cl[numpy.argmax(weights_cl)][0]` — the FIRST
FRAME RECORD of the maximal-weight member — as `rep_weight`.  `none`
captures the `ValueError`/`IndexError` raised when the cluster has no
members. -/
def select_rep (data_arr : List (List Frame)) (weights : List ℚ)
    (cluster_labels : List Nat) (icluster : Nat) :
    Option (List (List Frame) × Frame) :=
  let data_cl := cluster_members data_arr cluster_labels icluster
  match argmax (cluster_weights weights cluster_labels icluster) with
  | none => none
  | some i =>
    match data_cl[i]? with
    | none => none
    | some p =>
      match p.head? with
      | none => none
      | some f => some (data_cl, f)

/-- Embeds `determine_clusters`: `None` becomes
`list(range(0, max(cluster_labels) + 1))`, an explicit list is returned
unchanged. -/
def determine_clusters (cluster_labels : List Nat) (clusters : Option (List Nat)) :
    List Nat :=
  match clusters with
  | none => List.range ((cluster_labels.foldr max 0) + 1)
  | some cs => cs

/-- Embeds the representative-line loop of `export_std_files`: one
`rep_weight` value per requested cluster, in cluster order; the loop (and
hence the whole export, since the file is written only afterwards) fails
as soon as `select_rep` fails on one requested cluster. -/
def rep_lines (data_arr : List (List Frame)) (weights : List ℚ)
    (cluster_labels : List Nat) : List Nat → Option (List Frame)
  | [] => some []
  | ic :: rest =>
    match select_rep data_arr weights cluster_labels ic with
    | none => none
    | some r =>
      match rep_lines data_arr weights cluster_labels rest with
      | none => none
      | some l => some (r.2 :: l)

/-- Embeds `export_std_files`: resolve the requested clusters with
`determine_clusters`, then produce the representative report lines. -/
def export_std_files (data_arr : List (List Frame)) (weights : List ℚ)
    (cluster_labels : List Nat) (clusters : Option (List Nat)) :
    Option (List Frame) :=
  rep_lines data_arr weights cluster_labels
    (determine_clusters cluster_labels clusters)

/-- Modelled from the claim for C1: the maximum weight among the cluster
members (`max(weights within cluster)`), undefined for an empty
cluster. -/
def max_weight_spec (weights : List ℚ) (cluster_labels : List Nat)
    (icluster : Nat) : Option ℚ :=
  match cluster_weights weights cluster_labels icluster with
  | [] => none
  | w :: ws => some (ws.foldl max w)

/-- Claim C1 (code bug): on one pathway stored reversed (terminal frame
`iter 5, weight 1` first, initial frame `iter 4, weight 2` last), pathway
weight `2`, cluster label `1`, `select_rep` returns the terminal frame
RECORD `⟨5, 0, 0, 0, 1⟩` as `rep_weight` — not the maximal member weight
`2` — and the plain export line is that record, whose weight field `1`
differs from `max(weights within cluster) = 2`. -/
theorem C1_select_rep_returns_frame_record :
    select_rep [[⟨5, 0, 0, 0, 1⟩, ⟨4, 0, 0, 0, 2⟩]] [2] [1] 1 =
      some ([[⟨5, 0, 0, 0, 1⟩, ⟨4, 0, 0, 0, 2⟩]], ⟨5, 0, 0, 0, 1⟩) ∧
    export_std_files [[⟨5, 0, 0, 0, 1⟩, ⟨4, 0, 0, 0, 2⟩]] [2] [1] (some [1]) =
      some [⟨5, 0, 0, 0, 1⟩] ∧
    max_weight_spec [2] [1] 1 = some 2 ∧
    (⟨5, 0, 0, 0, (1 : ℚ)⟩ : Frame).weight ≠ (2 : ℚ) := by
  refine ⟨by decide, by decide, by decide, by decide⟩

/-- Claim C10: with `clusters = None` the default cluster list
`[0, ..., max(cluster_labels)]` contains `0`, but the flat-clustering
labels are 1-based, so cluster `0` has no members; `select_rep` then fails
on the empty weight selection (numpy `argmax` of an empty array), and the
plain export with the default list fails instead of producing one line
per real cluster. -/
theorem C10_default_cluster_zero_fails (data_arr : List (List Frame))
    (weights : List ℚ) (labels : List Nat)
    (hne : labels ≠ []) (h1 : ∀ c ∈ labels, 1 ≤ c) :
    0 ∈ determine_clusters labels none ∧
    cluster_members data_arr labels 0 = [] ∧
    select_rep data_arr weights labels 0 = none ∧
    export_std_files data_arr weights labels none = none := by
  have hmem : 0 ∈ determine_clusters labels none := by
    simp [determine_clusters]
  have hmembers : cluster_members data_arr labels 0 = [] := by
    rw [cluster_members, List.filterMap_eq_nil_iff]
    intro dc hdc
    have hc := (List.of_mem_zip hdc).2
    have := h1 dc.2 hc
    simp only [ite_eq_right_iff]
    intro h0
    omega
  have hweights : cluster_weights weights labels 0 = [] := by
    rw [cluster_weights, List.filterMap_eq_nil_iff]
    intro wc hwc
    have hc := (List.of_mem_zip hwc).2
    have := h1 wc.2 hc
    simp only [ite_eq_right_iff]
    intro h0
    omega
  have hsel : select_rep data_arr weights labels 0 = none := by
    rw [select_rep, hweights]
    rfl
  refine ⟨hmem, hmembers, hsel, ?_⟩
  rw [export_std_files]
  have hdet : determine_clusters labels none =
      0 :: (List.range (labels.foldr max 0)).map (· + 1) := by
    simp [determine_clusters, List.range_succ_eq_map]
  rw [hdet, rep_lines, hsel]

/-- Witness for C10 at one pathway with label `1`. -/
theorem C10_default_cluster_zero_fails_witness :
    0 ∈ determine_clusters [1] none ∧
    cluster_members [[(⟨1, 0, 0, 0, 1⟩ : Frame)]] [1] 0 = [] ∧
    select_rep [[(⟨1, 0, 0, 0, 1⟩ : Frame)]] [1] [1] 0 = none ∧
    export_std_files [[(⟨1, 0, 0, 0, 1⟩ : Frame)]] [1] [1] none = none :=
  C10_default_cluster_zero_fails [[⟨1, 0, 0, 0, 1⟩]] [1] [1] (by decide)
    (by decide)


/-- The on-disk store of saved distance matrices (matrices abstracted to
tokens), as a path-keyed association list. -/
abbrev FileSystem := List (String × Nat)

/-- Embeds `os.path.exists` on the matrix store. -/
def fs_exists (fs : FileSystem) (p : String) : Bool := fs.any (fun e => e.1 = p)

/-- Embeds `numpy.load`: `none` is the `FileNotFoundError` raised for a
missing path. -/
def fs_load (fs : FileSystem) (p : String) : Option Nat :=
  (fs.find? (fun e => e.1 = p)).map Prod.snd

/-- Embeds `numpy.save`. -/
def fs_save (fs : FileSystem) (p : String) (m : Nat) : FileSystem := (p, m) :: fs

/-- Embeds Python `out_dir.rsplit("/", 1)[0]`: everything before the last
slash, or the whole string when it has no slash. -/
def rsplit_head (s : String) : String :=
  if s.data.contains (Char.ofNat 47) then
    ⟨(((s.data.reverse).dropWhile (fun c => c ≠ Char.ofNat 47)).drop 1).reverse⟩
  else s

/-- Embeds the caching logic of `gen_dist_matrix` (the distance-matrix
computation itself is abstracted as the already-computed value
`computed`): the code builds `new_name = out_dir.rsplit("/", 1)[0] + "/" +
file_name`, tests existence at `new_name`, but calls
`numpy.save(file_name, distmat)` and `numpy.load(file_name)` on the bare
`file_name`. -/
def gen_dist_matrix_io (fs : FileSystem) (out_dir file_name : String)
    (remake : Bool) (computed : Nat) : Option Nat × FileSystem :=
  let new_name := rsplit_head out_dir ++ "/" ++ file_name
  if fs_exists fs new_name = false ∨ remake = true then
    (some computed, fs_save fs file_name computed)
  else
    (fs_load fs file_name, fs)

/-- Claim C4 (code bug): with the default `out_dir = "succ_traj"` and
`file_name = "distmat.npy"`, a cached matrix stored at the cache path
`succ_traj/distmat.npy` and `remake = False`, `gen_dist_matrix` passes the
existence test at the cache path but then loads the bare `distmat.npy`,
which is absent — the load fails (`none`) instead of returning the stored
matrix `5` verbatim; and when it recomputes it saves at `distmat.npy`,
leaving the checked cache path `succ_traj/distmat.npy` absent. -/
theorem C4_cache_path_mismatch :
    rsplit_head "succ_traj" = "succ_traj" ∧
    fs_exists [("succ_traj/distmat.npy", 5)] ("succ_traj" ++ "/" ++ "distmat.npy") =
      true ∧
    (gen_dist_matrix_io [("succ_traj/distmat.npy", 5)] "succ_traj" "distmat.npy"
        false 7).1 = none ∧
    (gen_dist_matrix_io [] "succ_traj" "distmat.npy" true 7).2 =
      [("distmat.npy", 7)] ∧
    fs_exists (gen_dist_matrix_io [] "succ_traj" "distmat.npy" true 7).2
      "succ_traj/distmat.npy" = false := by
  refine ⟨by decide, by decide, by decide, by decide, by decide⟩

end LPath
